import Mathlib

/-
Verification of the server-side secure-aggregation core of the repository
(Code/server.py): the CKKS context lifecycle, the fit aggregator
`aggregate_fit`, and the evaluation aggregator `aggregate_evaluate`.

Shallow embedding conventions:
- CKKS plaintext vectors are idealised as exact rationals (the scheme is
  approximate over floats; all claims here concern the arithmetic structure,
  stated under the spec's "within tolerance" reading, so exact arithmetic is
  the faithful idealisation).
- Python exceptions are modelled explicitly: the fit aggregator returns a
  `FitOutcome` with a `raised` constructor, the evaluation aggregator returns
  `Except Unit _` whose `error` value is a raised `ZeroDivisionError`.
- The TenSEAL library is external; its serialize/deserialize/decrypt
  primitives are modelled by their documented contract (a serialized context
  with `save_secret_key=False` omits the secret key; decryption requires the
  secret key; deserialising a ciphertext requires the matching context).
-/

namespace FLServer

/-- A CKKS context as created by `create_ckks_context` in Code/server.py:
scheme parameters plus key material.  `keyId` abstractly identifies the key
pair the context holds public material for; `hasSecretKey` records whether the
secret key is present (it is on the server, absent in the published snapshot). -/
structure CKKSContext where
  poly_modulus_degree : Nat
  coeff_mod_bit_sizes : List Nat
  global_scale : Nat
  keyId : Nat
  hasGaloisKeys : Bool
  hasSecretKey : Bool
deriving DecidableEq

/-- Code/server.py lines 9-17: build the CKKS context with
poly_modulus_degree 16384, coefficient modulus chain [60,40,40,60] and global
scale 2^40, generating galois keys; a fresh context holds its secret key. -/
def create_ckks_context : CKKSContext :=
  { poly_modulus_degree := 16384
    coeff_mod_bit_sizes := [60, 40, 40, 60]
    global_scale := 2 ^ 40
    keyId := 0
    hasGaloisKeys := true
    hasSecretKey := true }

/-- Code/server.py line 20: the process-wide server context. -/
def server_context : CKKSContext := create_ckks_context

/-- What a serialized context snapshot contains (TenSEAL
`context.serialize(save_secret_key=...)` modelled by its contract): the scheme
parameters, the public/evaluation key material, and optionally the secret key. -/
structure SerializedContext where
  poly_modulus_degree : Nat
  coeff_mod_bit_sizes : List Nat
  global_scale : Nat
  keyId : Nat
  includesGaloisKeys : Bool
  includesSecretKey : Bool
deriving DecidableEq

/-- TenSEAL context serialization: the snapshot carries the scheme parameters
and public/evaluation keys; the secret key is included only when
`save_secret_key` is set and the context actually holds one. -/
def contextSerialize (ctx : CKKSContext) (save_secret_key : Bool) : SerializedContext :=
  { poly_modulus_degree := ctx.poly_modulus_degree
    coeff_mod_bit_sizes := ctx.coeff_mod_bit_sizes
    global_scale := ctx.global_scale
    keyId := ctx.keyId
    includesGaloisKeys := ctx.hasGaloisKeys
    includesSecretKey := save_secret_key && ctx.hasSecretKey }

/-- TenSEAL context deserialization: re-importing a snapshot yields a context
with exactly the key material the snapshot contains. -/
def contextFrom (s : SerializedContext) : CKKSContext :=
  { poly_modulus_degree := s.poly_modulus_degree
    coeff_mod_bit_sizes := s.coeff_mod_bit_sizes
    global_scale := s.global_scale
    keyId := s.keyId
    hasGaloisKeys := s.includesGaloisKeys
    hasSecretKey := s.includesSecretKey }

/-- Code/server.py lines 23-24: the snapshot written to `ckks_context.tenseal`,
serialized with `save_secret_key=False`. -/
def publishedContext : SerializedContext := contextSerialize server_context false

/-- The possible shapes of a byte payload appearing as (or made from) one
entry of a Parameters tensors list: a well-formed serialized CKKS ciphertext
(tagged with the key pair that produced it and the plaintext it encrypts),
the pickle of a plain numeric array (Code/server.py line 56), or bytes that
are not a valid ciphertext serialization at all. -/
inductive Bytes where
  | cipherBytes : Nat → List ℚ → Bytes
  | pickled : List ℚ → Bytes
  | junk : Bytes
deriving DecidableEq

/-- A deserialized CKKS ciphertext bound to a key pair. -/
structure Ciphertext where
  keyId : Nat
  data : List ℚ
deriving DecidableEq

/-- TenSEAL `ts.ckks_vector_from(context, bytes)`: succeeds only on a
well-formed ciphertext serialization produced under the same context
(matching key material); pickled arrays and junk bytes are not valid
ciphertext serializations and fail (raise, caught by the caller). -/
def ckks_vector_from (ctx : CKKSContext) (b : Bytes) : Option Ciphertext :=
  match b with
  | .cipherBytes kid v => if kid = ctx.keyId then some ⟨kid, v⟩ else none
  | .pickled _ => none
  | .junk => none

/-- TenSEAL `enc_vector.decrypt()`: requires the context's secret key;
without it decryption fails (raises, caught by the caller). -/
def decryptCipher (ctx : CKKSContext) (c : Ciphertext) : Option (List ℚ) :=
  if ctx.hasSecretKey then some c.data else none

/-- One entry `w` of a Parameters tensors list, as discriminated by
Code/server.py lines 54-59: bytes, a list/ndarray, or anything else. -/
inductive Tensor where
  | bytes : Bytes → Tensor
  | array : List ℚ → Tensor
  | other : Tensor
deriving DecidableEq

/-- Code/server.py lines 54-66, the body of the per-entry loop: a list/ndarray
is first pickled to bytes (line 56); a non-bytes value is skipped (lines
58-59); bytes are deserialized under the server context and decrypted, any
exception being caught and the entry skipped (lines 61-66).  Returns the
decrypted plaintext vector on success. -/
def tryDecrypt (ctx : CKKSContext) (w : Tensor) : Option (List ℚ) :=
  match w with
  | .bytes b => (ckks_vector_from ctx b).bind (decryptCipher ctx)
  | .array v => (ckks_vector_from ctx (Bytes.pickled v)).bind (decryptCipher ctx)
  | .other => none

/-- The `fit_res.parameters` field of one client's result: either the expected
`fl.common.Parameters` envelope carrying a tensors list, or some other object
(failing the `isinstance` check of Code/server.py line 48). -/
inductive Params where
  | envelope : List Tensor → Params
  | notParams : Params
deriving DecidableEq

/-- One client's fit result as consumed by `aggregate_fit`. -/
structure FitRes where
  parameters : Params
deriving DecidableEq

/-- The observable outcome of one `aggregate_fit` call: the `(None, {})`
no-update return, an uncaught exception, or `(ndarrays_to_parameters ws, {})`
carrying the re-encrypted aggregate. -/
inductive FitOutcome where
  | noUpdate : FitOutcome
  | raised : FitOutcome
  | update : List Bytes → FitOutcome
deriving DecidableEq

/-- `torch.mean(torch.stack(ws), dim=0)` on a list of 1-d tensors:
`torch.stack` raises (here: `none`) unless all tensors have equal length;
otherwise the elementwise arithmetic mean is returned. -/
def stackMean (ws : List (List ℚ)) : Option (List ℚ) :=
  match ws with
  | [] => none
  | w :: rest =>
    if rest.all (fun v => v.length == w.length) then
      some ((List.range w.length).map
        (fun j => ((w :: rest).map (fun v => v.getD j 0)).sum / ((w :: rest).length : ℚ)))
    else none

/-- Code/server.py lines 37-74, `aggregate_fit`: collect every client's
`parameters` (line 41); return `(None, {})` if the list is empty (lines 43-44)
or if the first entry is not a `Parameters` envelope (lines 46-49); otherwise
iterate over the FIRST client's tensors only (line 51), keeping each entry
that deserializes and decrypts under the server context (lines 54-66); return
`(None, {})` if none survived (lines 68-69); otherwise stack-mean the
survivors and re-encrypt the mean under the server context (lines 71-74). -/
def aggregate_fit (rnd : Nat) (results : List (Nat × FitRes)) (failures : List Unit) :
    FitOutcome :=
  match results.map (fun r => r.2.parameters) with
  | [] => .noUpdate
  | Params.notParams :: _ => .noUpdate
  | Params.envelope weights :: _ =>
    let sample_weights := weights.filterMap (tryDecrypt server_context)
    if sample_weights.isEmpty then
      .noUpdate
    else
      match stackMean sample_weights with
      | none => .raised
      | some meanv => .update [Bytes.cipherBytes server_context.keyId meanv]

/-- The vectors of one client's contribution that decrypt successfully under a
context: empty when the parameters are not an envelope. -/
def clientDecrypted (ctx : CKKSContext) (fr : FitRes) : List (List ℚ) :=
  match fr.parameters with
  | .envelope ws => ws.filterMap (tryDecrypt ctx)
  | .notParams => []

/-- Modelled from the spec: the elementwise arithmetic mean across ALL
successfully decrypted client update vectors of ALL clients in the round
(spec section 4.3 step 4 and section 8).  Used only to compare the code's
behaviour against the spec's stated aggregate. -/
def specCrossClientMean (ctx : CKKSContext) (results : List (Nat × FitRes)) :
    Option (List ℚ) :=
  stackMean ((results.map (fun r => clientDecrypted ctx r.2)).flatten)

/-- One client's evaluation report as consumed by `aggregate_evaluate`:
whether `eval_res.status.code == fl.common.Code.OK`, the scalar loss, the
`metrics["accuracy"]` entry, and `num_examples`. -/
structure EvalRes where
  statusOk : Bool
  loss : ℚ
  accuracy : ℚ
  num_examples : Nat
deriving DecidableEq

/-- The process-wide metrics series of Code/server.py lines 29-34. -/
structure Metrics where
  loss_per_round : List ℚ
  accuracy_per_round : List ℚ
  train_loss_per_round : List ℚ
  train_accuracy_per_round : List ℚ
  test_loss_per_round : List ℚ
  test_accuracy_per_round : List ℚ
deriving DecidableEq

/-- All six series empty, the state at process start. -/
def emptyMetrics : Metrics := ⟨[], [], [], [], [], []⟩

/-- The accumulator tuple of Code/server.py line 79 together with the global
series state threaded through the call. -/
structure EvalAcc where
  total_loss : ℚ
  total_accuracy : ℚ
  total_train_loss : ℚ
  total_train_accuracy : ℚ
  total_test_loss : ℚ
  total_test_accuracy : ℚ
  total_samples : Nat
  metrics : Metrics
deriving DecidableEq

/-- Code/server.py lines 83-102, the report loop of `aggregate_evaluate`:
for each OK-status report add `loss * num_examples`, `accuracy * num_examples`
and `num_examples` to the totals (lines 89-91), then divide the (never
incremented) train/test accumulators by the running sample total — a
`ZeroDivisionError` (modelled as `Except.error ()`) when that total is zero
(lines 93-96) — and append the four quotients to the train/test series
(lines 98-101).  Non-OK reports are ignored. -/
def evalLoop : EvalAcc → List (Nat × EvalRes) → Except Unit EvalAcc
  | acc, [] => .ok acc
  | acc, (_, r) :: rest =>
    if r.statusOk then
      let tl := acc.total_loss + r.loss * (r.num_examples : ℚ)
      let ta := acc.total_accuracy + r.accuracy * (r.num_examples : ℚ)
      let ts := acc.total_samples + r.num_examples
      if ts = 0 then
        .error ()
      else
        evalLoop
          ⟨tl, ta, acc.total_train_loss, acc.total_train_accuracy,
           acc.total_test_loss, acc.total_test_accuracy, ts,
           ⟨acc.metrics.loss_per_round, acc.metrics.accuracy_per_round,
            acc.metrics.train_loss_per_round ++ [acc.total_train_loss / (ts : ℚ)],
            acc.metrics.train_accuracy_per_round ++ [acc.total_train_accuracy / (ts : ℚ)],
            acc.metrics.test_loss_per_round ++ [acc.total_test_loss / (ts : ℚ)],
            acc.metrics.test_accuracy_per_round ++ [acc.total_test_accuracy / (ts : ℚ)]⟩⟩
          rest
    else
      evalLoop acc rest

/-- Code/server.py lines 77-127, `aggregate_evaluate`: run the report loop
from zeroed accumulators, then, when the sample total is positive, append the
sample-weighted average loss and accuracy to the global series, append one
more (zero) entry to each train/test series (lines 104-119), and return
`(avg_loss, {accuracy: avg_accuracy})`; otherwise return
`(0.0, {accuracy: 0.0})` (line 127).  The global series are threaded as the
explicit state `m`; a raised `ZeroDivisionError` surfaces as `Except.error`. -/
def aggregate_evaluate (rnd : Nat) (results : List (Nat × EvalRes)) (failures : List Unit)
    (m : Metrics) : Except Unit (Metrics × ℚ × ℚ) :=
  match evalLoop ⟨0, 0, 0, 0, 0, 0, 0, m⟩ results with
  | .error e => .error e
  | .ok acc =>
    if 0 < acc.total_samples then
      let avg_loss := acc.total_loss / (acc.total_samples : ℚ)
      let avg_accuracy := acc.total_accuracy / (acc.total_samples : ℚ)
      .ok (⟨acc.metrics.loss_per_round ++ [avg_loss],
            acc.metrics.accuracy_per_round ++ [avg_accuracy],
            acc.metrics.train_loss_per_round ++ [acc.total_train_loss / (acc.total_samples : ℚ)],
            acc.metrics.train_accuracy_per_round ++ [acc.total_train_accuracy / (acc.total_samples : ℚ)],
            acc.metrics.test_loss_per_round ++ [acc.total_test_loss / (acc.total_samples : ℚ)],
            acc.metrics.test_accuracy_per_round ++ [acc.total_test_accuracy / (acc.total_samples : ℚ)]⟩,
           avg_loss, avg_accuracy)
    else
      .ok (acc.metrics, 0, 0)

/-- The OK-status reports of a round, in order. -/
def okReports (results : List (Nat × EvalRes)) : List EvalRes :=
  (results.map Prod.snd).filter (fun r => r.statusOk)

/-- Sum of `loss * num_examples` over a list of reports. -/
def sumWeightedLoss (rs : List EvalRes) : ℚ :=
  (rs.map (fun r => r.loss * (r.num_examples : ℚ))).sum

/-- Sum of `accuracy * num_examples` over a list of reports. -/
def sumWeightedAcc (rs : List EvalRes) : ℚ :=
  (rs.map (fun r => r.accuracy * (r.num_examples : ℚ))).sum

/-- Total sample count over a list of reports. -/
def sumSamples (rs : List EvalRes) : Nat :=
  (rs.map (fun r => r.num_examples)).sum

/-- Whether the first OK-status report (if any) has a positive sample count —
exactly the condition under which the in-loop divisions of
Code/server.py lines 93-96 never see a zero denominator. -/
def firstOkPositive (results : List (Nat × EvalRes)) : Bool :=
  match okReports results with
  | [] => true
  | r :: _ => r.num_examples != 0

theorem server_context_keyId : server_context.keyId = 0 := rfl

theorem server_context_hasSecretKey : server_context.hasSecretKey = true := rfl

theorem okReports_cons_ok (c : Nat) (r : EvalRes) (rest : List (Nat × EvalRes))
    (hs : r.statusOk = true) :
    okReports ((c, r) :: rest) = r :: okReports rest := by
  simp [okReports, List.filter_cons, hs]

theorem okReports_cons_notOk (c : Nat) (r : EvalRes) (rest : List (Nat × EvalRes))
    (hs : r.statusOk = false) :
    okReports ((c, r) :: rest) = okReports rest := by
  simp [okReports, List.filter_cons, hs]

theorem firstOkPositive_cons_ok (c : Nat) (r : EvalRes) (rest : List (Nat × EvalRes))
    (hs : r.statusOk = true) :
    firstOkPositive ((c, r) :: rest) = (r.num_examples != 0) := by
  simp only [firstOkPositive, okReports_cons_ok c r rest hs]

theorem firstOkPositive_cons_notOk (c : Nat) (r : EvalRes) (rest : List (Nat × EvalRes))
    (hs : r.statusOk = false) :
    firstOkPositive ((c, r) :: rest) = firstOkPositive rest := by
  simp only [firstOkPositive, okReports_cons_notOk c r rest hs]

theorem evalLoop_char (results : List (Nat × EvalRes)) :
    ∀ (tl ta : ℚ) (ts : Nat) (m : Metrics),
      (ts ≠ 0 ∨ firstOkPositive results = true) →
      evalLoop ⟨tl, ta, 0, 0, 0, 0, ts, m⟩ results =
        .ok ⟨tl + sumWeightedLoss (okReports results),
             ta + sumWeightedAcc (okReports results), 0, 0, 0, 0,
             ts + sumSamples (okReports results),
             ⟨m.loss_per_round, m.accuracy_per_round,
              m.train_loss_per_round ++ List.replicate (okReports results).length 0,
              m.train_accuracy_per_round ++ List.replicate (okReports results).length 0,
              m.test_loss_per_round ++ List.replicate (okReports results).length 0,
              m.test_accuracy_per_round ++ List.replicate (okReports results).length 0⟩⟩ := by
  induction results with
  | nil =>
    intro tl ta ts m _
    simp [evalLoop, okReports, sumWeightedLoss, sumWeightedAcc, sumSamples]
  | cons x rest ih =>
    intro tl ta ts m h
    obtain ⟨c, r⟩ := x
    by_cases hs : r.statusOk = true
    · have hObs : okReports ((c, r) :: rest) = r :: okReports rest :=
        okReports_cons_ok c r rest hs
      have hn : ts + r.num_examples ≠ 0 := by
        rcases h with h | h
        · omega
        · rcases Nat.eq_zero_or_pos ts with hts | hts
          · subst hts
            rw [firstOkPositive_cons_ok c r rest hs] at h
            simp only [bne_iff_ne, ne_eq] at h
            omega
          · omega
      simp only [evalLoop, hs, if_true, hn, if_false, zero_div, ite_false, ite_true]
      rw [ih (tl + r.loss * (r.num_examples : ℚ)) (ta + r.accuracy * (r.num_examples : ℚ))
          (ts + r.num_examples) _ (Or.inl hn)]
      simp [hObs, sumWeightedLoss, sumWeightedAcc, sumSamples, add_assoc,
        List.append_assoc, List.replicate_succ]
    · have hs' : r.statusOk = false := by simpa using hs
      have hObs : okReports ((c, r) :: rest) = okReports rest :=
        okReports_cons_notOk c r rest hs'
      have h' : ts ≠ 0 ∨ firstOkPositive rest = true := by
        rcases h with h | h
        · exact Or.inl h
        · exact Or.inr (by rw [firstOkPositive_cons_notOk c r rest hs'] at h; exact h)
      simp only [evalLoop, hs', if_false, Bool.false_eq_true, ite_false]
      rw [ih tl ta ts m h', hObs]

theorem evalLoop_err (results : List (Nat × EvalRes)) :
    ∀ (tl ta : ℚ) (m : Metrics), firstOkPositive results = false →
      evalLoop ⟨tl, ta, 0, 0, 0, 0, 0, m⟩ results = .error () := by
  induction results with
  | nil =>
    intro tl ta m h
    simp [firstOkPositive, okReports] at h
  | cons x rest ih =>
    intro tl ta m h
    obtain ⟨c, r⟩ := x
    by_cases hs : r.statusOk = true
    · have hz : r.num_examples = 0 := by
        rw [firstOkPositive_cons_ok c r rest hs] at h
        simpa using h
      simp [evalLoop, hs, hz]
    · have hs' : r.statusOk = false := by simpa using hs
      have h' : firstOkPositive rest = false := by
        rw [firstOkPositive_cons_notOk c r rest hs'] at h; exact h
      simp only [evalLoop, hs', if_false, Bool.false_eq_true, ite_false]
      exact ih tl ta m h'

theorem aggregate_evaluate_err (rnd : Nat) (results : List (Nat × EvalRes))
    (failures : List Unit) (m : Metrics) (h : firstOkPositive results = false) :
    aggregate_evaluate rnd results failures m = .error () := by
  simp only [aggregate_evaluate]
  rw [evalLoop_err results 0 0 m h]

theorem aggregate_evaluate_ok_first (rnd : Nat) (results : List (Nat × EvalRes))
    (failures : List Unit) (m : Metrics) (out : Metrics × ℚ × ℚ)
    (h : aggregate_evaluate rnd results failures m = .ok out) :
    firstOkPositive results = true := by
  by_contra hb
  have hf : firstOkPositive results = false := by simpa using hb
  rw [aggregate_evaluate_err rnd results failures m hf] at h
  exact Except.noConfusion h

theorem aggregate_evaluate_no_ok (rnd : Nat) (results : List (Nat × EvalRes))
    (failures : List Unit) (m : Metrics) (h : okReports results = []) :
    aggregate_evaluate rnd results failures m = .ok (m, 0, 0) := by
  have hfp : firstOkPositive results = true := by
    simp only [firstOkPositive, h]
  have hc := evalLoop_char results 0 0 0 m (Or.inr hfp)
  rw [h] at hc
  simp only [sumWeightedLoss, sumWeightedAcc, sumSamples, List.map_nil, List.sum_nil,
    add_zero, Nat.add_zero, List.length_nil, List.replicate_zero, List.append_nil] at hc
  simp only [aggregate_evaluate, hc]
  simp

theorem aggregate_evaluate_ok_char (rnd : Nat) (results : List (Nat × EvalRes))
    (failures : List Unit) (m : Metrics)
    (h1 : okReports results ≠ []) (h2 : firstOkPositive results = true) :
    aggregate_evaluate rnd results failures m =
      .ok (⟨m.loss_per_round ++
              [sumWeightedLoss (okReports results) / (sumSamples (okReports results) : ℚ)],
            m.accuracy_per_round ++
              [sumWeightedAcc (okReports results) / (sumSamples (okReports results) : ℚ)],
            m.train_loss_per_round ++ List.replicate ((okReports results).length + 1) 0,
            m.train_accuracy_per_round ++ List.replicate ((okReports results).length + 1) 0,
            m.test_loss_per_round ++ List.replicate ((okReports results).length + 1) 0,
            m.test_accuracy_per_round ++ List.replicate ((okReports results).length + 1) 0⟩,
           sumWeightedLoss (okReports results) / (sumSamples (okReports results) : ℚ),
           sumWeightedAcc (okReports results) / (sumSamples (okReports results) : ℚ)) := by
  have hn : sumSamples (okReports results) ≠ 0 := by
    rcases hok : okReports results with _ | ⟨r, rest⟩
    · exact absurd hok h1
    · unfold firstOkPositive at h2
      rw [hok] at h2
      simp only [bne_iff_ne, ne_eq] at h2
      simp only [sumSamples, List.map_cons, List.sum_cons]
      omega
  have hc := evalLoop_char results 0 0 0 m (Or.inr h2)
  simp only [aggregate_evaluate, hc]
  have hpos : 0 < 0 + sumSamples (okReports results) := by omega
  simp [hpos, hn, zero_div, List.append_assoc, List.replicate_succ']

/-- C1: the claim that `aggregate_fit` returns the elementwise mean of all
successfully decrypted updates across ALL clients fails on the code.  With
three clients submitting valid server-context ciphertexts of [1,1], [3,3] and
[5,5], the spec's cross-client mean is [3,3], but the code — which reads only
`results[0]` — returns the first client's vector [1,1] re-encrypted.  The
three conjuncts: the spec-mandated aggregate, what the code actually returns,
and that the two differ. -/
theorem c1_aggregate_fit_ignores_other_clients :
    specCrossClientMean server_context
        [(1, ⟨.envelope [.bytes (.cipherBytes 0 [1, 1])]⟩),
         (2, ⟨.envelope [.bytes (.cipherBytes 0 [3, 3])]⟩),
         (3, ⟨.envelope [.bytes (.cipherBytes 0 [5, 5])]⟩)] = some [3, 3] ∧
    aggregate_fit 1
        [(1, ⟨.envelope [.bytes (.cipherBytes 0 [1, 1])]⟩),
         (2, ⟨.envelope [.bytes (.cipherBytes 0 [3, 3])]⟩),
         (3, ⟨.envelope [.bytes (.cipherBytes 0 [5, 5])]⟩)] [] =
      .update [.cipherBytes server_context.keyId [1, 1]] ∧
    FitOutcome.update [Bytes.cipherBytes server_context.keyId [1, 1]] ≠
      FitOutcome.update [Bytes.cipherBytes server_context.keyId [3, 3]] := by
  refine ⟨?_, ?_, ?_⟩
  · norm_num [specCrossClientMean, clientDecrypted, tryDecrypt, ckks_vector_from,
      decryptCipher, stackMean, server_context_keyId, server_context_hasSecretKey,
      List.filterMap_cons, List.range_succ, Option.bind]
  · norm_num [aggregate_fit, tryDecrypt, ckks_vector_from, decryptCipher, stackMean,
      server_context_keyId, server_context_hasSecretKey,
      List.filterMap_cons, List.range_succ, Option.bind]
  · norm_num

/-- C2: the claim that a malformed client payload causes only that single
contribution to be skipped, the call returning the mean of the remaining
successfully decrypted updates, fails on the code.  With client 1 sending a
valid ciphertext of [1], client 2 malformed bytes and client 3 a valid
ciphertext of [5], the mean of the remaining valid updates is [3], but the
code returns [1]: the valid third client is ignored along with the malformed
one, because only `results[0]` is ever read. -/
theorem c2_malformed_client_not_merely_skipped :
    specCrossClientMean server_context
        [(1, ⟨.envelope [.bytes (.cipherBytes 0 [1])]⟩),
         (2, ⟨.envelope [.bytes .junk]⟩),
         (3, ⟨.envelope [.bytes (.cipherBytes 0 [5])]⟩)] = some [3] ∧
    aggregate_fit 2
        [(1, ⟨.envelope [.bytes (.cipherBytes 0 [1])]⟩),
         (2, ⟨.envelope [.bytes .junk]⟩),
         (3, ⟨.envelope [.bytes (.cipherBytes 0 [5])]⟩)] [] =
      .update [.cipherBytes server_context.keyId [1]] ∧
    FitOutcome.update [Bytes.cipherBytes server_context.keyId [1]] ≠
      FitOutcome.update [Bytes.cipherBytes server_context.keyId [3]] := by
  refine ⟨?_, ?_, ?_⟩
  · norm_num [specCrossClientMean, clientDecrypted, tryDecrypt, ckks_vector_from,
      decryptCipher, stackMean, server_context_keyId, server_context_hasSecretKey,
      List.filterMap_cons, List.range_succ, Option.bind]
  · norm_num [aggregate_fit, tryDecrypt, ckks_vector_from, decryptCipher, stackMean,
      server_context_keyId, server_context_hasSecretKey,
      List.filterMap_cons, List.range_succ, Option.bind]
  · norm_num

/-- C3 (amended): for a round with at least one OK-status report whose FIRST
OK report has a positive sample count, `aggregate_evaluate` returns the
sample-weighted average loss and accuracy over exactly the OK reports and
appends both to the global per-round loss and accuracy series.  (As stated
the claim is false: when the first OK report has zero samples the in-loop
division raises even if the round's total is positive — see the
counterexample theorem.) -/
theorem c3_aggregate_evaluate_weighted_mean (rnd : Nat) (results : List (Nat × EvalRes))
    (failures : List Unit) (m : Metrics)
    (h1 : okReports results ≠ []) (h2 : firstOkPositive results = true) :
    aggregate_evaluate rnd results failures m =
      .ok (⟨m.loss_per_round ++
              [sumWeightedLoss (okReports results) / (sumSamples (okReports results) : ℚ)],
            m.accuracy_per_round ++
              [sumWeightedAcc (okReports results) / (sumSamples (okReports results) : ℚ)],
            m.train_loss_per_round ++ List.replicate ((okReports results).length + 1) 0,
            m.train_accuracy_per_round ++ List.replicate ((okReports results).length + 1) 0,
            m.test_loss_per_round ++ List.replicate ((okReports results).length + 1) 0,
            m.test_accuracy_per_round ++ List.replicate ((okReports results).length + 1) 0⟩,
           sumWeightedLoss (okReports results) / (sumSamples (okReports results) : ℚ),
           sumWeightedAcc (okReports results) / (sumSamples (okReports results) : ℚ)) :=
  aggregate_evaluate_ok_char rnd results failures m h1 h2

/-- C3 counterexample: a round whose OK reports have positive total samples
(0 + 40 > 0), yet the call raises a `ZeroDivisionError` instead of returning
the weighted averages, because the first OK report has zero samples and
Code/server.py line 93 divides by the running total inside the loop. -/
theorem c3_counterexample_zero_sample_first_report :
    aggregate_evaluate 1 [(1, ⟨true, 1, 1, 0⟩), (2, ⟨true, 1, 1, 40⟩)] [] emptyMetrics =
      .error () := by
  norm_num [aggregate_evaluate, evalLoop, emptyMetrics]

/-- C3 witness: the spec's own example — reports (loss 0.2, acc 0.9, n 10) and
(loss 0.4, acc 0.7, n 30) yield avg_loss 0.35 and avg_accuracy 0.75, appended
to the loss and accuracy series. -/
theorem c3_weighted_mean_witness :
    aggregate_evaluate 1
        [(1, ⟨true, 1 / 5, 9 / 10, 10⟩), (2, ⟨true, 2 / 5, 7 / 10, 30⟩)] [] emptyMetrics =
      .ok (⟨[7 / 20], [3 / 4], [0, 0, 0], [0, 0, 0], [0, 0, 0], [0, 0, 0]⟩, 7 / 20, 3 / 4) := by
  have hok : okReports [(1, (⟨true, 1 / 5, 9 / 10, 10⟩ : EvalRes)),
      (2, ⟨true, 2 / 5, 7 / 10, 30⟩)] =
      [⟨true, 1 / 5, 9 / 10, 10⟩, ⟨true, 2 / 5, 7 / 10, 30⟩] := by
    simp [okReports, List.filter_cons]
  have h := c3_aggregate_evaluate_weighted_mean 1
      [(1, ⟨true, 1 / 5, 9 / 10, 10⟩), (2, ⟨true, 2 / 5, 7 / 10, 30⟩)] [] emptyMetrics
      (by rw [hok]; exact List.cons_ne_nil _ _)
      (by unfold firstOkPositive; rw [hok]; rfl)
  rw [h, hok]
  norm_num [sumWeightedLoss, sumWeightedAcc, sumSamples, emptyMetrics,
    List.replicate_succ]

/-- C4: the claim that a round whose OK reports all have zero `num_examples`
returns `(0.0, {accuracy: 0.0})` without dividing by zero fails on the code:
a single OK report with `num_examples = 0` makes Code/server.py line 93 divide
`total_train_loss` by a zero running sample total, raising `ZeroDivisionError`
(the claim's empty-report and all-non-OK cases do hold; see the C4-adjacent
helper facts used by other claims). -/
theorem c4_zero_sample_ok_report_divides_by_zero :
    aggregate_evaluate 1 [(1, ⟨true, 0, 0, 0⟩)] [] emptyMetrics = .error () := by
  norm_num [aggregate_evaluate, evalLoop, emptyMetrics]

/-- C5: `aggregate_fit` returns the no-update result immediately when the
round's update list is empty or when its first entry's parameters are not the
expected `Parameters` envelope (Code/server.py lines 43-49). -/
theorem c5_reject_empty_or_unrecognized (rnd : Nat) (results : List (Nat × FitRes))
    (failures : List Unit)
    (h : results = [] ∨
         (results.map (fun r => r.2.parameters)).head? = some Params.notParams) :
    aggregate_fit rnd results failures = .noUpdate := by
  rcases h with rfl | hh
  · rfl
  · cases results with
    | nil => simp at hh
    | cons x rest =>
      simp only [List.map_cons, List.head?_cons, Option.some.injEq] at hh
      simp [aggregate_fit, List.map_cons, hh]

/-- C5 witness: a one-client round whose parameters are not a `Parameters`
envelope yields the no-update result. -/
theorem c5_reject_witness :
    aggregate_fit 1 [(1, ⟨Params.notParams⟩)] [] = FitOutcome.noUpdate :=
  c5_reject_empty_or_unrecognized 1 [(1, ⟨Params.notParams⟩)] [] (Or.inr rfl)

/-- C6: on a non-empty round in which no client payload decrypts successfully
(every contribution malformed or otherwise unusable), `aggregate_fit` returns
the no-update result — in particular no exception escapes the call. -/
theorem c6_all_unusable_no_update (rnd : Nat) (x : Nat × FitRes)
    (rest : List (Nat × FitRes)) (failures : List Unit)
    (h : ∀ p ∈ x :: rest, clientDecrypted server_context p.2 = []) :
    aggregate_fit rnd (x :: rest) failures = .noUpdate := by
  have hx := h x (List.mem_cons_self x rest)
  obtain ⟨c, fr⟩ := x
  rcases hp : fr.parameters with ws | _
  · simp only [clientDecrypted, hp] at hx
    simp [aggregate_fit, hp, hx]
  · simp [aggregate_fit, hp]

/-- C6 witness: a round whose first client sends only junk bytes, a pickled
plain array and a non-bytes object, and whose second client's parameters are
not an envelope, produces the no-update result. -/
theorem c6_all_unusable_witness :
    aggregate_fit 3
      [(1, ⟨Params.envelope [Tensor.bytes Bytes.junk, Tensor.array [2, 2], Tensor.other]⟩),
       (2, ⟨Params.notParams⟩)] [] = FitOutcome.noUpdate := by
  refine c6_all_unusable_no_update 3 _ _ [] ?_
  intro p hp
  simp only [List.mem_cons, List.not_mem_nil, or_false] at hp
  rcases hp with rfl | rfl
  · rfl
  · rfl

/-- C7: the train/test accumulators are never incremented from report data, so
every value a completed `aggregate_evaluate` call appends to the four
train/test series is 0: the new series are the old ones extended by some
number of zeros. -/
theorem c7_train_test_series_always_zero (rnd : Nat) (results : List (Nat × EvalRes))
    (failures : List Unit) (m : Metrics) (out : Metrics × ℚ × ℚ)
    (h : aggregate_evaluate rnd results failures m = .ok out) :
    ∃ k, out.1.train_loss_per_round = m.train_loss_per_round ++ List.replicate k 0 ∧
         out.1.train_accuracy_per_round = m.train_accuracy_per_round ++ List.replicate k 0 ∧
         out.1.test_loss_per_round = m.test_loss_per_round ++ List.replicate k 0 ∧
         out.1.test_accuracy_per_round = m.test_accuracy_per_round ++ List.replicate k 0 := by
  have hfp := aggregate_evaluate_ok_first rnd results failures m out h
  by_cases hok : okReports results = []
  · rw [aggregate_evaluate_no_ok rnd results failures m hok] at h
    obtain rfl := Except.ok.inj h
    exact ⟨0, by simp⟩
  · rw [aggregate_evaluate_ok_char rnd results failures m hok hfp] at h
    obtain rfl := Except.ok.inj h
    exact ⟨(okReports results).length + 1, rfl, rfl, rfl, rfl⟩

/-- C7 witness: a completed call on one OK report (n = 1) and one non-OK
report extends each train/test series by zeros only. -/
theorem c7_train_test_zero_witness :
    aggregate_evaluate 2 [(1, ⟨true, 1, 1, 1⟩), (2, ⟨false, 1, 1, 3⟩)] [] emptyMetrics =
      .ok (⟨[1], [1], [0, 0], [0, 0], [0, 0], [0, 0]⟩, 1, 1) ∧
    (∃ k, (⟨[1], [1], [0, 0], [0, 0], [0, 0], [0, 0]⟩ : Metrics).train_loss_per_round =
            emptyMetrics.train_loss_per_round ++ List.replicate k 0 ∧
          (⟨[1], [1], [0, 0], [0, 0], [0, 0], [0, 0]⟩ : Metrics).train_accuracy_per_round =
            emptyMetrics.train_accuracy_per_round ++ List.replicate k 0 ∧
          (⟨[1], [1], [0, 0], [0, 0], [0, 0], [0, 0]⟩ : Metrics).test_loss_per_round =
            emptyMetrics.test_loss_per_round ++ List.replicate k 0 ∧
          (⟨[1], [1], [0, 0], [0, 0], [0, 0], [0, 0]⟩ : Metrics).test_accuracy_per_round =
            emptyMetrics.test_accuracy_per_round ++ List.replicate k 0) := by
  have hev : aggregate_evaluate 2 [(1, ⟨true, 1, 1, 1⟩), (2, ⟨false, 1, 1, 3⟩)] [] emptyMetrics =
      .ok (⟨[1], [1], [0, 0], [0, 0], [0, 0], [0, 0]⟩, 1, 1) := by
    norm_num [aggregate_evaluate, evalLoop, emptyMetrics]
  exact ⟨hev, c7_train_test_series_always_zero 2 _ [] emptyMetrics _ hev⟩

/-- C8 counterexample: the claim that one `aggregate_evaluate` call adds at
most one element to each metrics series fails: a single OK report (n = 1)
appends TWO elements to each train/test series (one inside the report loop,
one in the end-of-round block), here growing `train_loss_per_round` from
length 0 to length 2. -/
theorem c8_counterexample_double_append :
    aggregate_evaluate 1 [(1, ⟨true, 0, 0, 1⟩)] [] emptyMetrics =
      .ok (⟨[0], [0], [0, 0], [0, 0], [0, 0], [0, 0]⟩, 0, 0) ∧
    ((⟨[0], [0], [0, 0], [0, 0], [0, 0], [0, 0]⟩ : Metrics).train_loss_per_round.length =
      emptyMetrics.train_loss_per_round.length + 2) := by
  constructor
  · norm_num [aggregate_evaluate, evalLoop, emptyMetrics]
  · rfl

/-- C8 (amended): per completed `aggregate_evaluate` call the loss and
accuracy series each gain at most one element, but each train/test series
gains one element per OK report plus one more at the end of a
positive-sample round (k + 1 elements for k OK reports), not at most one. -/
theorem c8_series_append_counts (rnd : Nat) (results : List (Nat × EvalRes))
    (failures : List Unit) (m : Metrics) (out : Metrics × ℚ × ℚ)
    (h : aggregate_evaluate rnd results failures m = .ok out) :
    out.1.loss_per_round.length ≤ m.loss_per_round.length + 1 ∧
    out.1.accuracy_per_round.length ≤ m.accuracy_per_round.length + 1 ∧
    out.1.train_loss_per_round.length = m.train_loss_per_round.length +
      (if okReports results = [] then 0 else (okReports results).length + 1) ∧
    out.1.train_accuracy_per_round.length = m.train_accuracy_per_round.length +
      (if okReports results = [] then 0 else (okReports results).length + 1) ∧
    out.1.test_loss_per_round.length = m.test_loss_per_round.length +
      (if okReports results = [] then 0 else (okReports results).length + 1) ∧
    out.1.test_accuracy_per_round.length = m.test_accuracy_per_round.length +
      (if okReports results = [] then 0 else (okReports results).length + 1) := by
  have hfp := aggregate_evaluate_ok_first rnd results failures m out h
  by_cases hok : okReports results = []
  · rw [aggregate_evaluate_no_ok rnd results failures m hok] at h
    obtain rfl := Except.ok.inj h
    simp [hok]
  · rw [aggregate_evaluate_ok_char rnd results failures m hok hfp] at h
    obtain rfl := Except.ok.inj h
    simp [hok]

/-- C8 witness: a call on one OK report (n = 2): the loss and accuracy series
gain one element, each train/test series gains 1 + 1 = 2 elements. -/
theorem c8_append_counts_witness :
    aggregate_evaluate 4 [(1, ⟨true, 0, 0, 2⟩)] [] emptyMetrics =
      .ok (⟨[0], [0], [0, 0], [0, 0], [0, 0], [0, 0]⟩, 0, 0) ∧
    ((⟨[0], [0], [0, 0], [0, 0], [0, 0], [0, 0]⟩ : Metrics).loss_per_round.length ≤
        emptyMetrics.loss_per_round.length + 1 ∧
      (⟨[0], [0], [0, 0], [0, 0], [0, 0], [0, 0]⟩ : Metrics).accuracy_per_round.length ≤
        emptyMetrics.accuracy_per_round.length + 1 ∧
      (⟨[0], [0], [0, 0], [0, 0], [0, 0], [0, 0]⟩ : Metrics).train_loss_per_round.length =
        emptyMetrics.train_loss_per_round.length +
          (if okReports [(1, ⟨true, 0, 0, 2⟩)] = [] then 0
           else (okReports [(1, ⟨true, 0, 0, 2⟩)]).length + 1) ∧
      (⟨[0], [0], [0, 0], [0, 0], [0, 0], [0, 0]⟩ : Metrics).train_accuracy_per_round.length =
        emptyMetrics.train_accuracy_per_round.length +
          (if okReports [(1, ⟨true, 0, 0, 2⟩)] = [] then 0
           else (okReports [(1, ⟨true, 0, 0, 2⟩)]).length + 1) ∧
      (⟨[0], [0], [0, 0], [0, 0], [0, 0], [0, 0]⟩ : Metrics).test_loss_per_round.length =
        emptyMetrics.test_loss_per_round.length +
          (if okReports [(1, ⟨true, 0, 0, 2⟩)] = [] then 0
           else (okReports [(1, ⟨true, 0, 0, 2⟩)]).length + 1) ∧
      (⟨[0], [0], [0, 0], [0, 0], [0, 0], [0, 0]⟩ : Metrics).test_accuracy_per_round.length =
        emptyMetrics.test_accuracy_per_round.length +
          (if okReports [(1, ⟨true, 0, 0, 2⟩)] = [] then 0
           else (okReports [(1, ⟨true, 0, 0, 2⟩)]).length + 1)) := by
  have hev : aggregate_evaluate 4 [(1, ⟨true, 0, 0, 2⟩)] [] emptyMetrics =
      .ok (⟨[0], [0], [0, 0], [0, 0], [0, 0], [0, 0]⟩, 0, 0) := by
    norm_num [aggregate_evaluate, evalLoop, emptyMetrics]
  exact ⟨hev, c8_series_append_counts 4 _ [] emptyMetrics _ hev⟩

/-- C9: the context snapshot the server writes for client distribution
(serialized with `save_secret_key=False`, Code/server.py lines 23-24)
round-trips the scheme parameters and carries the public/evaluation keys but
no secret-key material, so no payload of any kind can be decrypted using the
re-imported snapshot alone. -/
theorem c9_published_context_excludes_secret_key :
    publishedContext.includesSecretKey = false ∧
    publishedContext.poly_modulus_degree = server_context.poly_modulus_degree ∧
    publishedContext.coeff_mod_bit_sizes = server_context.coeff_mod_bit_sizes ∧
    publishedContext.global_scale = server_context.global_scale ∧
    publishedContext.includesGaloisKeys = true ∧
    ∀ w : Tensor, tryDecrypt (contextFrom publishedContext) w = none := by
  refine ⟨rfl, rfl, rfl, rfl, rfl, ?_⟩
  intro w
  have hsk : (contextFrom publishedContext).hasSecretKey = false := rfl
  cases w with
  | bytes b =>
    cases b with
    | cipherBytes kid v =>
      simp only [tryDecrypt, ckks_vector_from]
      by_cases hk : kid = (contextFrom publishedContext).keyId
      · simp [hk, decryptCipher, hsk]
      · simp [hk]
    | pickled v => rfl
    | junk => rfl
  | array v => rfl
  | other => rfl

/-- C10: the result of `aggregate_fit` depends only on the first client's
parameters: any two non-empty results lists with equal first parameters give
equal results, whatever the later entries (and whatever the failures list). -/
theorem c10_result_depends_only_on_first_client (rnd : Nat) (a b : Nat × FitRes)
    (l1 l2 : List (Nat × FitRes)) (failures1 failures2 : List Unit)
    (h : a.2.parameters = b.2.parameters) :
    aggregate_fit rnd (a :: l1) failures1 = aggregate_fit rnd (b :: l2) failures2 := by
  obtain ⟨ca, ⟨pa⟩⟩ := a
  obtain ⟨cb, ⟨pb⟩⟩ := b
  have hp : pa = pb := h
  subst hp
  cases pa <;> rfl

/-- C10 witness: dropping the second client and renaming the first leaves the
aggregate unchanged. -/
theorem c10_first_client_witness :
    aggregate_fit 1
        [(1, ⟨Params.envelope [Tensor.bytes (Bytes.cipherBytes 0 [2])]⟩),
         (2, ⟨Params.notParams⟩)] [] =
      aggregate_fit 1 [(3, ⟨Params.envelope [Tensor.bytes (Bytes.cipherBytes 0 [2])]⟩)] [] :=
  c10_result_depends_only_on_first_client 1
    (1, ⟨Params.envelope [Tensor.bytes (Bytes.cipherBytes 0 [2])]⟩)
    (3, ⟨Params.envelope [Tensor.bytes (Bytes.cipherBytes 0 [2])]⟩)
    [(2, ⟨Params.notParams⟩)] [] [] [] rfl

end FLServer
